import Mathlib

/-!
Verification development for the `aws-sdk-pandas` tutorial repository.

The repository ships a tutorial notebook ("035 - Distributing Calls on Ray
Remote Cluster") and a CI workflow (`.github/workflows/static-checking.yml`).
The specification additionally describes, at design level, an Execution
Engine Selector & Dispatcher core (Engine Registry, Environment Probe,
Selector, Dispatcher) that it explicitly presents as a reconstruction: that
core has no implementation in the repository, so its components are modelled
here directly from the specification text, while the workflow and the
notebook cell are embedded from the actual source files.
-/

/-- Modelled from the spec: §3 "EngineKind: enumerated value, one of
{Local, Distributed}" — the implementation of this data type is missing
from the repository sources. -/
inductive EngineKind where
  | Local : EngineKind
  | Distributed : EngineKind
  deriving DecidableEq, Repr

/-- Modelled from the spec: §3 "ProbeResult: {endpoint configured: boolean,
endpoint value: optional string, optional capability installed: boolean}",
together with §4.2's `endpoint configured = true, reachable = false` field —
the implementation is missing from the repository sources. -/
structure ProbeResult where
  endpointConfigured : Bool
  endpointValue : Option String
  reachable : Bool
  capabilityInstalled : Bool
  deriving DecidableEq, Repr

/-- Modelled from the spec: §3 "EngineDescriptor: {kind: EngineKind,
readiness predicate, priority rank}" — the implementation is missing from
the repository sources. -/
structure EngineDescriptor where
  kind : EngineKind
  ready : ProbeResult → Bool
  priority : Nat

/-- Modelled from the spec: §4.1 priority order on descriptors (a lower
rank number means higher priority, "Distributed(priority 1), Local(priority
2)"). -/
def rankLE (a b : EngineDescriptor) : Prop := a.priority ≤ b.priority

instance : DecidableRel rankLE :=
  fun a b => inferInstanceAs (Decidable (a.priority ≤ b.priority))

instance : IsTotal EngineDescriptor rankLE :=
  ⟨fun a b => Nat.le_total a.priority b.priority⟩

instance : IsTrans EngineDescriptor rankLE :=
  ⟨fun _ _ _ hab hbc => Nat.le_trans hab hbc⟩

/-- Modelled from the spec: §4.1 "`list()` returns the ordered sequence of
descriptors, highest priority first" — the implementation is missing from
the repository sources. -/
def Registry.list (regs : List EngineDescriptor) : List EngineDescriptor :=
  List.insertionSort rankLE regs

/-- Modelled from the spec: §7 error taxonomy, "NoEngineAvailableError —
registry empty; fatal configuration error". -/
inductive SelectError where
  | NoEngineAvailableError : SelectError
  deriving DecidableEq, Repr

/-- Modelled from the spec: §4.3 "iterate the registry's descriptors in
priority order; for each, evaluate its readiness predicate against the
ProbeResult; select the first whose predicate is satisfied". -/
def selectFirst (p : ProbeResult) : List EngineDescriptor → Except SelectError EngineKind
  | [] => .error .NoEngineAvailableError
  | d :: ds => if d.ready p then .ok d.kind else selectFirst p ds

/-- Modelled from the spec: §4.3 Selector — choose exactly one EngineKind
from the registry's ordered list and a fresh ProbeResult; the
implementation is missing from the repository sources. -/
def Selector.resolve (regs : List EngineDescriptor) (p : ProbeResult) :
    Except SelectError EngineKind :=
  selectFirst p (Registry.list regs)

/-- Modelled from the spec: §4.3 "Distributed's predicate: `endpoint
configured AND reachable`". -/
def distributedReady (p : ProbeResult) : Bool :=
  p.endpointConfigured && p.reachable

/-- Modelled from the spec: §4.3 "Local's predicate: always true (fallback
of last resort)". -/
def localReady (_ : ProbeResult) : Bool := true

/-- Modelled from the spec: §8 scenario descriptor "Distributed(priority 1)". -/
def distributedDescriptor : EngineDescriptor :=
  ⟨EngineKind.Distributed, distributedReady, 1⟩

/-- Modelled from the spec: §8 scenario descriptor "Local(priority 2)". -/
def localDescriptor : EngineDescriptor :=
  ⟨EngineKind.Local, localReady, 2⟩

/-- A descriptor carrying one of the two readiness predicates fixed by the
spec (§4.3): a Distributed engine with the `configured AND reachable`
predicate, or a Local engine with the always-true predicate. -/
def standardDescriptor (d : EngineDescriptor) : Prop :=
  (d.kind = EngineKind.Distributed ∧ d.ready = distributedReady) ∨
    (d.kind = EngineKind.Local ∧ d.ready = localReady)

/-- Modelled from the spec: §4.2 and §6 — the hosting environment read by
the Environment Probe: "one endpoint-address setting (string or absent) and
one or more installed-capability boolean flags"; `reachableCheck` models
the outcome of the bounded-timeout connectivity check on a configured
endpoint ("failure is reported ... rather than thrown"). -/
structure HostEnv where
  rayAddress : Option String
  capabilityInstalled : Bool
  reachableCheck : String → Bool

/-- Modelled from the spec: §4.2 "`probe()` reads a configured endpoint
setting and a set of installed-capability flags from the hosting
environment and returns a ProbeResult. Must not raise on missing
configuration" — the total return type `ProbeResult` (no error case) is the
never-raises contract; the implementation is missing from the repository
sources. -/
def probe (env : HostEnv) : ProbeResult :=
  match env.rayAddress with
  | none => ⟨false, none, false, env.capabilityInstalled⟩
  | some a => ⟨true, some a, env.reachableCheck a, env.capabilityInstalled⟩

/-- Modelled from the spec: §3 "ActiveSelection: {chosen engine kind,
timestamp/generation counter}; lifecycle: initialized to `unresolved`" —
by construction a value denotes exactly one EngineKind or `unresolved`. -/
inductive ActiveSelection where
  | unresolved : ActiveSelection
  | resolved : EngineKind → Nat → ActiveSelection
  deriving DecidableEq, Repr

/-- Modelled from the spec: §7 error taxonomy for the Dispatcher —
`NoEngineAvailableError`, `UnsupportedOperationError` "naming the operation
and the active engine kind", and verbatim propagation of handler
failures. -/
inductive DispatchError (ε : Type) where
  | NoEngineAvailableError : DispatchError ε
  | UnsupportedOperationError : String → EngineKind → DispatchError ε
  | HandlerFailure : ε → DispatchError ε

/-- Modelled from the spec: §4.4 — forwarding one operation to the active
engine `k` (at generation `g`): look up the handler registered for `k`
under `op`; if absent, fail with `UnsupportedOperationError` naming the
operation and the kind; otherwise return the handler's result verbatim,
propagating its failure unchanged. -/
def forward {α ε β : Type} (handlers : EngineKind → String → Option (α → Except ε β))
    (k : EngineKind) (g : Nat) (op : String) (args : α) :
    ActiveSelection × Except (DispatchError ε) β :=
  match handlers k op with
  | none => (ActiveSelection.resolved k g, .error (.UnsupportedOperationError op k))
  | some h => (ActiveSelection.resolved k g, (h args).mapError DispatchError.HandlerFailure)

/-- Modelled from the spec: §4.4 "`dispatch(operationName, arguments)` — if
ActiveSelection is `unresolved`, first runs Environment Probe and Selector
synchronously to resolve it, then forwards" — the implementation is missing
from the repository sources.  Returns the updated ActiveSelection together
with the call's outcome. -/
def dispatch {α ε β : Type} (env : HostEnv) (regs : List EngineDescriptor)
    (handlers : EngineKind → String → Option (α → Except ε β))
    (s : ActiveSelection) (op : String) (args : α) :
    ActiveSelection × Except (DispatchError ε) β :=
  match s with
  | .resolved k g => forward handlers k g op args
  | .unresolved =>
    match Selector.resolve regs (probe env) with
    | .error _ => (.unresolved, .error .NoEngineAvailableError)
    | .ok k => forward handlers k 1 op args

/-- Modelled from the spec: §7 "DuplicateEngineError — registry misuse". -/
inductive RegistryError where
  | DuplicateEngineError : RegistryError
  deriving DecidableEq, Repr

/-- Modelled from the spec: §4.1 "`register(descriptor)` adds a descriptor;
fails with `DuplicateEngineError` if the kind is already registered. ... No
side effects beyond in-memory registration" — the implementation is missing
from the repository sources. -/
def register (regs : List EngineDescriptor) (d : EngineDescriptor) :
    Except RegistryError (List EngineDescriptor) :=
  if regs.any (fun e => e.kind == d.kind) then .error .DuplicateEngineError
  else .ok (regs ++ [d])

/-- A sample operation-handler table used by the dispatch witnesses: every
engine implements only the operation `"read_parquet"`, echoing its
argument. -/
def sampleHandlers : EngineKind → String → Option (Nat → Except Unit Nat) :=
  fun _ opName => if opName = "read_parquet" then some (fun n => Except.ok n) else none

/-- A sample hosting environment with no endpoint configured. -/
def sampleEnv : HostEnv := ⟨none, false, fun _ => false⟩

/-!
### The CI workflow, embedded from `.github/workflows/static-checking.yml`
-/

/-- A step of a GitHub Actions job: either `uses:` an existing action or
`run:` a shell script (lines joined with a newline). -/
inductive StepAction where
  | uses : String → StepAction
  | runScript : String → StepAction

/-- A named (or unnamed) workflow step, from `jobs.Check.steps`. -/
structure WorkflowStep where
  stepName : Option String
  action : StepAction

/-- The `Check` job of the workflow: runner, Python version matrix, and the
ordered list of steps. -/
structure WorkflowJob where
  jobName : String
  runsOn : String
  matrixPythonVersions : List String
  steps : List WorkflowStep

/-- A workflow file: name, trigger events, contents permission and jobs. -/
structure Workflow where
  workflowName : String
  onEvents : List String
  permissionsContents : String
  jobs : List WorkflowJob

/-- The workflow `src/.github/workflows/static-checking.yml`, transcribed
field by field from the YAML source. -/
def staticCheckingWorkflow : Workflow :=
  ⟨"Static Checking",
   ["workflow_dispatch", "push", "pull_request"],
   "read",
   [⟨"Check", "ubuntu-latest", ["3.8"],
     [⟨none, StepAction.uses "actions/checkout@v3"⟩,
      ⟨some "Set up Python $\x7b\x7b matrix.python-version \x7d\x7d",
        StepAction.uses "actions/setup-python@v4"⟩,
      ⟨some "Install Requirements",
        StepAction.runScript "python -m pip install --upgrade pip\npython -m pip install poetry\npoetry config virtualenvs.create false --local\npoetry install --all-extras -vvv"⟩,
      ⟨some "Black style", StepAction.runScript "black --check ."⟩,
      ⟨some "ruff check",
        StepAction.runScript "ruff . --ignore \"PL\" --ignore \"D\"\nruff awswrangler"⟩,
      ⟨some "mypy check",
        StepAction.runScript "mypy --install-types --non-interactive awswrangler"⟩,
      ⟨some "Pylint Lint",
        StepAction.runScript "pylint -j 0 --disable=all --enable=R0913,R0915 awswrangler"⟩,
      ⟨some "Documentation check",
        StepAction.runScript "doc8 --max-line-length 120 docs/source"⟩]⟩]⟩

/-- The command-line tool a run script invokes first: the first
whitespace-delimited word of its first line. -/
def commandWord (script : String) : String :=
  String.mk (script.data.takeWhile (fun c => c != ' ' && c != '\n'))

/-- The tool a workflow step invokes: the action it `uses:`, or the first
command of the script it `run:`s. -/
def WorkflowStep.tool : WorkflowStep → String
  | ⟨_, StepAction.uses a⟩ => a
  | ⟨_, StepAction.runScript s⟩ => commandWord s

/-!
### The notebook cell that configures `RAY_ADDRESS`, embedded from
`src/tutorials/035 - Distributing Calls on Ray Remote Cluster.ipynb`

The cell is
`head_node_ip = subprocess.check_output(['ray', 'get-head-ip',
'config.yml']).decode("utf-8").split("\n")[-2]` followed by
`os.environ['RAY_ADDRESS'] = f"ray://{head_node_ip}:10001"`.  The decoded
output is modelled as a list of characters; Python's `str.split` on a
one-character separator and its negative indexing (raising IndexError when
the index is out of range, modelled as `none`) are embedded below.
-/

/-- Python's `s.split("\n")`: split a character list at every newline;
the result always has one more element than the number of newlines. -/
def splitLines : List Char → List (List Char)
  | [] => [[]]
  | c :: cs =>
    let rest := splitLines cs
    if c = '\n' then [] :: rest
    else (c :: rest.headD []) :: rest.tail

/-- The notebook's `head_node_ip`: element `[-2]` of the split output,
which Python reads as index `len - 2` and which raises IndexError (here:
`none`) unless the list has at least two elements. -/
def headNodeIp (decoded : List Char) : Option (List Char) :=
  let L := splitLines decoded
  if 2 ≤ L.length then L[L.length - 2]? else none

/-- The notebook's `RAY_ADDRESS` value: the f-string
`f"ray://{head_node_ip}:10001"`, defined only when `head_node_ip` is. -/
def rayAddressValue (decoded : List Char) : Option (List Char) :=
  (headNodeIp decoded).map (fun ip => "ray://".data ++ ip ++ ":10001".data)

/- ### Helper lemmas for the Selector -/

theorem selectFirst_cons_of_ready (p : ProbeResult) (d : EngineDescriptor)
    (ds : List EngineDescriptor) (h : d.ready p = true) :
    selectFirst p (d :: ds) = .ok d.kind := by
  simp [selectFirst, h]

theorem selectFirst_cons_of_not_ready (p : ProbeResult) (d : EngineDescriptor)
    (ds : List EngineDescriptor) (h : d.ready p = false) :
    selectFirst p (d :: ds) = selectFirst p ds := by
  simp [selectFirst, h]

theorem selectFirst_isOk_of_exists (p : ProbeResult) :
    ∀ l : List EngineDescriptor, (∃ d ∈ l, d.ready p = true) →
      ∃ k, selectFirst p l = .ok k := by
  intro l
  induction l with
  | nil => rintro ⟨d, hd, _⟩; exact absurd hd (List.not_mem_nil d)
  | cons h t ih =>
    rintro ⟨d, hd, hdr⟩
    by_cases hh : h.ready p = true
    · exact ⟨h.kind, selectFirst_cons_of_ready p h t hh⟩
    · rw [selectFirst_cons_of_not_ready p h t (Bool.eq_false_iff.mpr hh)]
      rcases List.mem_cons.mp hd with rfl | hdt
      · exact absurd hdr hh
      · exact ih ⟨d, hdt, hdr⟩

theorem selectFirst_local_of_unconfigured (p : ProbeResult)
    (hconf : p.endpointConfigured = false) :
    ∀ l : List EngineDescriptor, (∀ d ∈ l, standardDescriptor d) →
      (∃ d ∈ l, d.kind = EngineKind.Local) →
      selectFirst p l = .ok EngineKind.Local := by
  intro l
  induction l with
  | nil => rintro _ ⟨d, hd, _⟩; exact absurd hd (List.not_mem_nil d)
  | cons h t ih =>
    rintro hstd ⟨d, hd, hdk⟩
    rcases hstd h (List.mem_cons_self h t) with ⟨hk, hr⟩ | ⟨hk, hr⟩
    · have hnot : h.ready p = false := by
        rw [hr]; simp [distributedReady, hconf]
      rw [selectFirst_cons_of_not_ready p h t hnot]
      rcases List.mem_cons.mp hd with rfl | hdt
      · rw [hk] at hdk; exact absurd hdk (by simp)
      · exact ih (fun e he => hstd e (List.mem_cons_of_mem h he)) ⟨d, hdt, hdk⟩
    · have hyes : h.ready p = true := by rw [hr]; rfl
      rw [selectFirst_cons_of_ready p h t hyes, hk]

/-- Claim C1: for every registry made of the spec's two engine descriptors,
containing both engines, with every Distributed descriptor ranked above
(lower rank number than) every Local descriptor, and for every ProbeResult
whose endpoint-configured and reachable fields are both true,
`Selector.resolve` returns Distributed. -/
theorem resolve_prefers_distributed
    (regs : List EngineDescriptor) (p : ProbeResult)
    (hstd : ∀ d ∈ regs, standardDescriptor d)
    (hD : ∃ d ∈ regs, d.kind = EngineKind.Distributed)
    (hL : ∃ d ∈ regs, d.kind = EngineKind.Local)
    (hrank : ∀ a ∈ regs, ∀ b ∈ regs,
      a.kind = EngineKind.Distributed → b.kind = EngineKind.Local →
        a.priority < b.priority)
    (hconf : p.endpointConfigured = true) (hreach : p.reachable = true) :
    Selector.resolve regs p = .ok EngineKind.Distributed := by
  clear hL
  rcases hD with ⟨d0, hd0mem, hd0kind⟩
  have hd0s : d0 ∈ Registry.list regs := by
    rw [Registry.list, List.mem_insertionSort]; exact hd0mem
  have hsorted : List.Sorted rankLE (Registry.list regs) :=
    List.sorted_insertionSort rankLE regs
  rw [Selector.resolve]
  cases hlist : Registry.list regs with
  | nil => rw [hlist] at hd0s; exact absurd hd0s (List.not_mem_nil d0)
  | cons h t =>
    rw [hlist] at hd0s hsorted
    have hhmem : h ∈ regs := by
      rw [← List.mem_insertionSort rankLE (l := regs) (x := h), ← Registry.list, hlist]
      exact List.mem_cons_self h t
    rcases hstd h hhmem with ⟨hk, hr⟩ | ⟨hk, hr⟩
    · have hyes : h.ready p = true := by
        rw [hr]; simp [distributedReady, hconf, hreach]
      rw [selectFirst_cons_of_ready p h t hyes, hk]
    · exfalso
      rcases List.mem_cons.mp hd0s with rfl | hd0t
      · rw [hk] at hd0kind; simp at hd0kind
      · have hle : rankLE h d0 := (List.sorted_cons.mp hsorted).1 d0 hd0t
        have hlt : d0.priority < h.priority :=
          hrank d0 hd0mem h hhmem hd0kind hk
        exact absurd hle (by rw [rankLE]; omega)

/-- Witness for C1 at the spec's §8 scenario: registry
`[Distributed(priority 1), Local(priority 2)]`, probe result
`{configured: true, reachable: true}`. -/
theorem resolve_prefers_distributed_witness :
    Selector.resolve [distributedDescriptor, localDescriptor]
      ⟨true, some "ray-head", true, false⟩ = .ok EngineKind.Distributed :=
  resolve_prefers_distributed _ _
    (by
      intro d hd
      rcases List.mem_cons.mp hd with rfl | hd2
      · exact Or.inl ⟨rfl, rfl⟩
      rcases List.mem_cons.mp hd2 with rfl | hd3
      · exact Or.inr ⟨rfl, rfl⟩
      · exact absurd hd3 (List.not_mem_nil d))
    ⟨distributedDescriptor, by simp, rfl⟩
    ⟨localDescriptor, by simp, rfl⟩
    (by decide)
    rfl rfl

/-- Claim C2: for every ProbeResult whose endpoint-configured field is
false, and for every registry of the spec's standard descriptors containing
Local's always-true descriptor, `Selector.resolve` returns Local — for all
values of the remaining probe fields, the installed-capability flag
included. -/
theorem resolve_falls_back_to_local
    (regs : List EngineDescriptor) (p : ProbeResult)
    (hstd : ∀ d ∈ regs, standardDescriptor d)
    (hL : ∃ d ∈ regs, d.kind = EngineKind.Local)
    (hconf : p.endpointConfigured = false) :
    Selector.resolve regs p = .ok EngineKind.Local := by
  rw [Selector.resolve]
  apply selectFirst_local_of_unconfigured p hconf
  · intro d hd
    exact hstd d ((List.mem_insertionSort rankLE).mp hd)
  · rcases hL with ⟨d, hd, hdk⟩
    exact ⟨d, by rw [Registry.list, List.mem_insertionSort]; exact hd, hdk⟩

/-- Witness for C2 at the spec's §8 scenario: registry
`[Distributed(priority 1), Local(priority 2)]`, probe result
`{configured: false}` (capability flag set, showing it is ignored). -/
theorem resolve_falls_back_to_local_witness :
    Selector.resolve [distributedDescriptor, localDescriptor]
      ⟨false, none, false, true⟩ = .ok EngineKind.Local :=
  resolve_falls_back_to_local _ _
    (by
      intro d hd
      rcases List.mem_cons.mp hd with rfl | hd2
      · exact Or.inl ⟨rfl, rfl⟩
      rcases List.mem_cons.mp hd2 with rfl | hd3
      · exact Or.inr ⟨rfl, rfl⟩
      · exact absurd hd3 (List.not_mem_nil d))
    ⟨localDescriptor, by simp, rfl⟩
    rfl

/-- Claim C3: `Selector.resolve` fails with NoEngineAvailableError exactly
when the registry is empty — on the empty registry it fails with
NoEngineAvailableError for every probe result, and for every registry
containing at least one descriptor whose readiness predicate always holds,
it returns a kind, and failing with NoEngineAvailableError is equivalent to
the registry being empty. -/
theorem resolve_no_engine_iff_empty :
    (∀ p, Selector.resolve [] p = .error SelectError.NoEngineAvailableError) ∧
    (∀ (regs : List EngineDescriptor) (p : ProbeResult),
      (∃ d ∈ regs, ∀ q, d.ready q = true) →
        (∃ k, Selector.resolve regs p = .ok k) ∧
        (Selector.resolve regs p = .error SelectError.NoEngineAvailableError ↔
          regs = [])) := by
  constructor
  · intro p; rfl
  · intro regs p hready
    rcases hready with ⟨d, hd, hdr⟩
    have hok : ∃ k, Selector.resolve regs p = .ok k := by
      rw [Selector.resolve]
      apply selectFirst_isOk_of_exists
      exact ⟨d, by rw [Registry.list, List.mem_insertionSort]; exact hd, hdr p⟩
    refine ⟨hok, ?_, ?_⟩
    · intro herr
      rcases hok with ⟨k, hk⟩
      rw [hk] at herr
      exact absurd herr (by simp)
    · intro hempty
      rw [hempty] at hd
      exact absurd hd (List.not_mem_nil d)

/-- Witness for C3: the singleton registry holding Local's always-ready
descriptor resolves to a kind, and its failure is equivalent to the (false)
statement that the registry is empty. -/
theorem resolve_no_engine_iff_empty_witness :
    (∃ k, Selector.resolve [localDescriptor] ⟨false, none, false, false⟩ =
      .ok k) ∧
    (Selector.resolve [localDescriptor] ⟨false, none, false, false⟩ =
        .error SelectError.NoEngineAvailableError ↔
      [localDescriptor] = ([] : List EngineDescriptor)) :=
  resolve_no_engine_iff_empty.2 [localDescriptor] ⟨false, none, false, false⟩
    ⟨localDescriptor, by simp, fun q => rfl⟩

/- ### Dispatcher lemmas -/

theorem forward_fst {α ε β : Type}
    (handlers : EngineKind → String → Option (α → Except ε β))
    (k : EngineKind) (g : Nat) (op : String) (args : α) :
    (forward handlers k g op args).1 = ActiveSelection.resolved k g := by
  rw [forward]
  cases handlers k op <;> rfl

theorem forward_ok {α ε β : Type}
    (handlers : EngineKind → String → Option (α → Except ε β))
    (k : EngineKind) (g : Nat) (op : String) (args : α) (b : β)
    (hb : (forward handlers k g op args).2 = Except.ok b) :
    ∃ h, handlers k op = some h ∧ h args = Except.ok b := by
  cases hh : handlers k op with
  | none => simp [forward, hh] at hb
  | some h =>
    simp only [forward, hh] at hb
    refine ⟨h, rfl, ?_⟩
    cases hargs : h args with
    | error e => rw [hargs] at hb; simp [Except.mapError] at hb
    | ok b2 =>
      rw [hargs] at hb
      simp only [Except.mapError, Except.ok.injEq] at hb
      rw [hb]

theorem forward_handler_error {α ε β : Type}
    (handlers : EngineKind → String → Option (α → Except ε β))
    (k : EngineKind) (g : Nat) (op : String) (args : α) (e : ε)
    (hb : (forward handlers k g op args).2 =
      Except.error (DispatchError.HandlerFailure e)) :
    ∃ h, handlers k op = some h ∧ h args = Except.error e := by
  cases hh : handlers k op with
  | none => simp [forward, hh] at hb
  | some h =>
    simp only [forward, hh] at hb
    refine ⟨h, rfl, ?_⟩
    cases hargs : h args with
    | error e2 =>
      rw [hargs] at hb
      simp only [Except.mapError, Except.error.injEq, DispatchError.HandlerFailure.injEq] at hb
      rw [hb]
    | ok b2 => rw [hargs] at hb; simp [Except.mapError] at hb


/-- Claim C4: the Dispatcher never forwards an operation while
ActiveSelection is `unresolved` — on an unresolved selection it first runs
Environment Probe and Selector synchronously (its behaviour then equals a
dispatch from the resolved selection the Selector produced); every call
whose outcome comes from a handler executes against a resolved EngineKind
(its post-state selection is resolved to the kind whose handler ran); and
ActiveSelection always denotes exactly one EngineKind or `unresolved`. -/
theorem dispatch_resolves_before_forwarding {α ε β : Type}
    (env : HostEnv) (regs : List EngineDescriptor)
    (handlers : EngineKind → String → Option (α → Except ε β))
    (s : ActiveSelection) (op : String) (args : α) :
    (s = ActiveSelection.unresolved → ∀ k,
      Selector.resolve regs (probe env) = Except.ok k →
        dispatch env regs handlers s op args =
          dispatch env regs handlers (ActiveSelection.resolved k 1) op args) ∧
    (∀ b : β, (dispatch env regs handlers s op args).2 = Except.ok b →
      ∃ k g h, (dispatch env regs handlers s op args).1 = ActiveSelection.resolved k g ∧
        handlers k op = some h ∧ h args = Except.ok b) ∧
    (∀ e : ε, (dispatch env regs handlers s op args).2 =
        Except.error (DispatchError.HandlerFailure e) →
      ∃ k g h, (dispatch env regs handlers s op args).1 = ActiveSelection.resolved k g ∧
        handlers k op = some h ∧ h args = Except.error e) ∧
    (s = ActiveSelection.unresolved ∨ ∃ k g, s = ActiveSelection.resolved k g) := by
  refine ⟨?_, ?_, ?_, ?_⟩
  · rintro rfl k hres
    simp [dispatch, hres]
  · intro b hb
    cases s with
    | resolved k g =>
      simp only [dispatch] at hb ⊢
      rcases forward_ok handlers k g op args b hb with ⟨h, hh, hha⟩
      exact ⟨k, g, h, forward_fst handlers k g op args, hh, hha⟩
    | unresolved =>
      simp only [dispatch] at hb ⊢
      cases hres : Selector.resolve regs (probe env) with
      | error e => rw [hres] at hb; simp at hb
      | ok k =>
        rw [hres] at hb
        rcases forward_ok handlers k 1 op args b (by simpa using hb) with ⟨h, hh, hha⟩
        refine ⟨k, 1, h, ?_, hh, hha⟩
        simpa using forward_fst handlers k 1 op args
  · intro e he
    cases s with
    | resolved k g =>
      simp only [dispatch] at he ⊢
      rcases forward_handler_error handlers k g op args e he with ⟨h, hh, hha⟩
      exact ⟨k, g, h, forward_fst handlers k g op args, hh, hha⟩
    | unresolved =>
      simp only [dispatch] at he ⊢
      cases hres : Selector.resolve regs (probe env) with
      | error e2 => rw [hres] at he; simp at he
      | ok k =>
        rw [hres] at he
        rcases forward_handler_error handlers k 1 op args e (by simpa using he) with ⟨h, hh, hha⟩
        refine ⟨k, 1, h, ?_, hh, hha⟩
        simpa using forward_fst handlers k 1 op args
  · cases s with
    | unresolved => exact Or.inl rfl
    | resolved k g => exact Or.inr ⟨k, g, rfl⟩

/-- Witness for C4: dispatching from the unresolved selection against the
Local-only registry equals dispatching from the selection resolved to
Local at generation 1. -/
theorem dispatch_resolves_before_forwarding_witness :
    dispatch sampleEnv [localDescriptor] sampleHandlers
        ActiveSelection.unresolved "read_parquet" 3 =
      dispatch sampleEnv [localDescriptor] sampleHandlers
        (ActiveSelection.resolved EngineKind.Local 1) "read_parquet" 3 :=
  (dispatch_resolves_before_forwarding sampleEnv [localDescriptor] sampleHandlers
      ActiveSelection.unresolved "read_parquet" 3).1 rfl EngineKind.Local rfl

/-- Claim C5: for every operation name with no handler registered for the
active engine, `dispatch` fails with `UnsupportedOperationError` naming
that operation and the active engine kind and leaves ActiveSelection
unchanged; and the outcome of a dispatch against an active engine depends
only on that engine's handler table, so no other engine's handler is ever
invoked (no silent fallback to a different engine kind). -/
theorem dispatch_unsupported_operation {α ε β : Type}
    (env : HostEnv) (regs : List EngineDescriptor)
    (handlers handlers2 : EngineKind → String → Option (α → Except ε β))
    (k : EngineKind) (g : Nat) (op : String) (args : α) :
    (handlers k op = none →
      dispatch env regs handlers (ActiveSelection.resolved k g) op args =
        (ActiveSelection.resolved k g,
          Except.error (DispatchError.UnsupportedOperationError op k))) ∧
    (handlers2 k = handlers k →
      dispatch env regs handlers2 (ActiveSelection.resolved k g) op args =
        dispatch env regs handlers (ActiveSelection.resolved k g) op args) := by
  constructor
  · intro hnone
    simp [dispatch, forward, hnone]
  · intro hagree
    simp [dispatch, forward, hagree]

/-- Witness for C5: on the active Local engine, the operation `"opX"` has
no handler in the empty handler table, so dispatch fails with
`UnsupportedOperationError "opX" Local` and the selection is unchanged. -/
theorem dispatch_unsupported_operation_witness :
    dispatch sampleEnv [localDescriptor]
        (fun _ _ => (none : Option (Nat → Except Unit Nat)))
        (ActiveSelection.resolved EngineKind.Local 1) "opX" 0 =
      (ActiveSelection.resolved EngineKind.Local 1,
        Except.error (DispatchError.UnsupportedOperationError "opX" EngineKind.Local)) :=
  (dispatch_unsupported_operation sampleEnv [localDescriptor]
      (fun _ _ => (none : Option (Nat → Except Unit Nat)))
      (fun _ _ => (none : Option (Nat → Except Unit Nat)))
      EngineKind.Local 1 "opX" 0).1 rfl

/-- Claim C6: `probe` never raises — it is a total function into
ProbeResult; a missing endpoint configuration produces a ProbeResult with
endpoint-configured = false rather than an error, and a connectivity-check
failure on a configured endpoint produces endpoint-configured = true,
reachable = false as ProbeResult fields rather than a thrown exception. -/
theorem probe_never_raises (env : HostEnv) :
    (env.rayAddress = none →
      probe env = ⟨false, none, false, env.capabilityInstalled⟩) ∧
    (∀ a, env.rayAddress = some a →
      (probe env).endpointConfigured = true ∧
        (probe env).endpointValue = some a ∧
        (probe env).reachable = env.reachableCheck a) ∧
    (∀ a, env.rayAddress = some a → env.reachableCheck a = false →
      (probe env).endpointConfigured = true ∧ (probe env).reachable = false) := by
  refine ⟨?_, ?_, ?_⟩
  · intro h
    simp [probe, h]
  · intro a h
    simp [probe, h]
  · intro a h hfail
    simp [probe, h, hfail]

/-- Witness for C6: a hosting environment with no endpoint yields the
unconfigured ProbeResult, and one whose configured endpoint fails the
connectivity check yields configured = true, reachable = false. -/
theorem probe_never_raises_witness :
    probe ⟨none, true, fun _ => false⟩ = ⟨false, none, false, true⟩ ∧
    ((probe ⟨some "ray-head", false, fun _ => false⟩).endpointConfigured = true ∧
      (probe ⟨some "ray-head", false, fun _ => false⟩).reachable = false) :=
  ⟨(probe_never_raises ⟨none, true, fun _ => false⟩).1 rfl,
    (probe_never_raises ⟨some "ray-head", false, fun _ => false⟩).2.2 "ray-head" rfl rfl⟩

/-- Claim C7: `register` fails with DuplicateEngineError if and only if a
descriptor of the same EngineKind is already registered; otherwise it
returns the registry extended with the descriptor, and — being a pure
function on the in-memory registry — it has no other effect. -/
theorem register_duplicate_iff (regs : List EngineDescriptor) (d : EngineDescriptor) :
    (register regs d = Except.error RegistryError.DuplicateEngineError ↔
      ∃ e ∈ regs, e.kind = d.kind) ∧
    ((∀ e ∈ regs, e.kind ≠ d.kind) → register regs d = Except.ok (regs ++ [d])) := by
  constructor
  · rw [register]
    by_cases h : regs.any (fun e => e.kind == d.kind)
    · rw [if_pos h]
      rw [List.any_eq_true] at h
      rcases h with ⟨e, he, hek⟩
      simp only [true_iff, eq_self_iff_true]
      exact ⟨e, he, by simpa using hek⟩
    · rw [if_neg h]
      constructor
      · intro hcontra
        exact absurd hcontra (by simp)
      · rintro ⟨e, he, hek⟩
        exact absurd (List.any_eq_true.mpr ⟨e, he, by simpa using hek⟩) h
  · intro hall
    rw [register, if_neg]
    intro hany
    rw [List.any_eq_true] at hany
    rcases hany with ⟨e, he, hek⟩
    exact hall e he (by simpa using hek)

/-- Witness for C7: registering Local after Distributed succeeds and
appends; registering Local again fails with DuplicateEngineError. -/
theorem register_duplicate_iff_witness :
    register [distributedDescriptor] localDescriptor =
        Except.ok [distributedDescriptor, localDescriptor] ∧
    register [localDescriptor] localDescriptor =
        Except.error RegistryError.DuplicateEngineError :=
  ⟨(register_duplicate_iff [distributedDescriptor] localDescriptor).2
      (by
        intro e he
        rcases List.mem_cons.mp he with rfl | he2
        · exact (by decide : distributedDescriptor.kind ≠ localDescriptor.kind)
        · exact absurd he2 (List.not_mem_nil e)),
    (register_duplicate_iff [localDescriptor] localDescriptor).1.mpr
      ⟨localDescriptor, by simp, rfl⟩⟩

/- ### Workflow and notebook lemmas -/

theorem splitLines_ne_nil (cs : List Char) : splitLines cs ≠ [] := by
  cases cs with
  | nil => simp [splitLines]
  | cons c cs =>
    rw [splitLines]
    by_cases h : c = '\n' <;> simp [h]

theorem splitLines_length (cs : List Char) :
    (splitLines cs).length = cs.count '\n' + 1 := by
  induction cs with
  | nil => rfl
  | cons c cs ih =>
    rcases List.exists_cons_of_ne_nil (splitLines_ne_nil cs) with ⟨l, ls, hrest⟩
    by_cases h : c = '\n'
    · rw [splitLines]
      simp [h, List.count_cons, ih]
    · rw [splitLines]
      simp only [if_neg h, List.length_cons, List.count_cons]
      rw [hrest] at ih ⊢
      simp only [List.length_cons, List.tail_cons] at ih ⊢
      have hne : (c == '\n') = false := by simpa using h
      simp [hne]
      omega

/-- Claim C9: the repository's continuous-integration workflow declares a
single job whose steps invoke, in exactly this order and nothing else:
checkout, Python setup, dependency install (a `python -m pip` script),
black, ruff, mypy, pylint, doc8. -/
theorem static_checking_runs_listed_tools_in_order :
    staticCheckingWorkflow.jobs.map (fun j => j.jobName) = ["Check"] ∧
    staticCheckingWorkflow.jobs.map (fun j => j.steps.map WorkflowStep.tool) =
      [["actions/checkout@v3", "actions/setup-python@v4", "python",
        "black", "ruff", "mypy", "pylint", "doc8"]] :=
  ⟨rfl, rfl⟩

/-- Claim C10: in the notebook cell configuring the cluster endpoint,
`RAY_ADDRESS` is `"ray://" ++ L[-2] ++ ":10001"` where `L` is the decoded
`ray get-head-ip` output split on newlines; this is well-defined exactly
when the decoded output contains a newline (so `L` has at least two
elements), and for an output with no newline the `[-2]` access is
out-of-range (modelled as `none`). -/
theorem rayAddress_defined_iff_newline (decoded : List Char) :
    ('\n' ∈ decoded →
      2 ≤ (splitLines decoded).length ∧
      ∃ ip, headNodeIp decoded = some ip ∧
        rayAddressValue decoded = some ("ray://".data ++ ip ++ ":10001".data)) ∧
    ('\n' ∉ decoded →
      headNodeIp decoded = none ∧ rayAddressValue decoded = none) := by
  constructor
  · intro hmem
    have hc : 0 < decoded.count '\n' := List.count_pos_iff.mpr hmem
    have hlen : 2 ≤ (splitLines decoded).length := by
      rw [splitLines_length]; omega
    refine ⟨hlen, ?_⟩
    have hlt : (splitLines decoded).length - 2 < (splitLines decoded).length := by
      omega
    have hip : headNodeIp decoded =
        some ((splitLines decoded).get ⟨(splitLines decoded).length - 2, hlt⟩) := by
      rw [headNodeIp]
      simp only [if_pos hlen]
      rw [List.getElem?_eq_getElem hlt]
      simp
    exact ⟨(splitLines decoded).get ⟨(splitLines decoded).length - 2, hlt⟩, hip,
      by rw [rayAddressValue, hip]; rfl⟩
  · intro hmem
    have hc : decoded.count '\n' = 0 := List.count_eq_zero.mpr hmem
    have hone : (splitLines decoded).length = 1 := by
      rw [splitLines_length, hc]
    have hip : headNodeIp decoded = none := by
      rw [headNodeIp]
      simp only [hone]
      rw [if_neg (by omega)]
    exact ⟨hip, by rw [rayAddressValue, hip]; rfl⟩

/-- Witness for C10: the decoded output `"10.0.0.7\n"` (one trailing
newline) yields a defined head-node address, while the newline-free decoded
output `"err"` makes the `[-2]` access out-of-range. -/
theorem rayAddress_defined_iff_newline_witness :
    (2 ≤ (splitLines ("10.0.0.7\n".data)).length ∧
      ∃ ip, headNodeIp ("10.0.0.7\n".data) = some ip ∧
        rayAddressValue ("10.0.0.7\n".data) =
          some ("ray://".data ++ ip ++ ":10001".data)) ∧
    (headNodeIp ("err".data) = none ∧ rayAddressValue ("err".data) = none) :=
  ⟨(rayAddress_defined_iff_newline ("10.0.0.7\n".data)).1 (by decide),
    (rayAddress_defined_iff_newline ("err".data)).2 (by decide)⟩
